import Mathlib

/-!
Verification of the AutoGuardian dashboard aggregation engine.

The definitions below are a shallow embedding of the metric-aggregation
code in `static/js/dashboard.js` (the `computeMetrics`, `renderCharts`,
`updateAIMetrics` and auto-refresh logic) and of the manual-rescan polling
loop in `frontend/src/pages/Dashboard.js` (`handleRescan`).

Modelling conventions:
- JS numbers are modelled as `ℚ`; JS `Math.round` rounds half toward
  positive infinity, i.e. `⌊x + 1/2⌋`.
- Optional / possibly-missing JS fields are modelled as `Option`.
  JS truthiness (`a || b`) on a number is falsy for a missing value and
  for `0`; on a string it is falsy for a missing value and for `""`.
  The optional `ai_details` object with its three optional sub-scores is
  flattened into three optional fields: `e.ai_details?.zero_shot` is
  missing exactly when either `ai_details` or `zero_shot` is absent.
- JS `String.prototype.split` with a one-character separator and
  `String.prototype.trim` are modelled character-wise (`splitCh`,
  `trimChars`), since they are primitives in JS.
- A JS object used as a counter keeps its string keys in insertion
  order, i.e. first-seen order of the keys; it is modelled as an
  association list where a new key is appended at the end (`bump`).
- `Array.prototype.sort` is a stable sort; with the comparator
  `(a, b) => b[1] - a[1]` it is a stable sort descending by count,
  modelled as the stable insertion sort `sortDesc`.
- `ScanRecord` types every field at the type the code handles; to
  capture what happens when the backend JSON carries a differently
  typed value in a field on which the code calls a string method
  (`timestamp`, `matched_rules`), `RawRecord` types those two fields
  as arbitrary JSON values and `computeMetricsRaw` returns `none` for
  the TypeError that `(v || '').split(...)` then throws on a truthy
  non-string `v`.
-/

namespace AutoGuardian

/-- One scan record as consumed by `dashboard.js`. Every field read by the
dashboard may be absent in the raw JSON, hence the `Option`s; `quarantine`
is only used for truthiness so it is modelled as a `Bool`. -/
structure ScanRecord where
  sender : Option String := none
  email_from : Option String := none
  score : Option ℚ := none
  risk_level : Option String := none
  timestamp : Option String := none
  matched_rules : Option String := none
  quarantine : Bool := false
  zero_shot : Option ℚ := none
  transformer : Option ℚ := none
  hybrid_score : Option ℚ := none

/-- JS `s || d` for an optional string `s`: a missing or empty string is
falsy and yields the fallback `d`. -/
def strOr : Option String → String → String
  | some s, d => if s = "" then d else s
  | none, d => d

/-- JS `x || d` for an optional number `x`: a missing value and `0` are
falsy and yield the fallback `d`. -/
def numOr : Option ℚ → ℚ → ℚ
  | some v, d => if v = 0 then d else v
  | none, d => d

/-- JS `String.prototype.split` with a one-character separator, on the
character list of the string. `''.split(sep)` is `['']`. -/
def splitCh (sep : Char) : List Char → List (List Char)
  | [] => [[]]
  | c :: cs =>
    let r := splitCh sep cs
    if c = sep then [] :: r else (c :: r.headD []) :: r.tail

/-- Drop leading whitespace characters. -/
def trimL : List Char → List Char
  | [] => []
  | c :: cs => if c.isWhitespace then trimL cs else c :: cs

/-- JS `String.prototype.trim`: drop whitespace at both ends. -/
def trimChars (s : List Char) : List Char := (trimL ((trimL s).reverse)).reverse

/-- `e.score || 0` — the score used everywhere in `computeMetrics`;
a missing score is treated as `0`. -/
def scoreVal (e : ScanRecord) : ℚ := numOr e.score 0

/-- `scanHistory.map(e => e.score || 0)`. -/
def scores (h : List ScanRecord) : List ℚ := h.map scoreVal

/-- `(e.timestamp || '').split('T')[0]`. -/
def dateOf (e : ScanRecord) : String :=
  String.mk ((splitCh 'T' (strOr e.timestamp "").data).headD [])

/-- The per-day bucket keys: one key per record whose date part is
non-empty (`if (!date) return;`). -/
def dayKeys (h : List ScanRecord) : List String :=
  h.filterMap (fun e => let d := dateOf e; if d = "" then none else some d)

/-- One `obj[k] = (obj[k] || 0) + 1` step on a JS object modelled as an
association list in key-insertion order: an existing key is bumped in
place, a new key is appended at the end. -/
def bump : List (String × ℕ) → String → List (String × ℕ)
  | [], k => [(k, 1)]
  | (k', c) :: rest, k =>
    if k' = k then (k', c + 1) :: rest else (k', c) :: bump rest k

/-- Counting loop `keys.forEach(k => obj[k] = (obj[k] || 0) + 1)` starting
from the empty object. -/
def countsOf (keys : List String) : List (String × ℕ) := keys.foldl bump []

/-- `perDay` of `computeMetrics`. -/
def perDay (h : List ScanRecord) : List (String × ℕ) := countsOf (dayKeys h)

/-- `const sender = e.sender || e.email_from || ''; if (!sender) return;`
— the identity a local record is counted under, if any. -/
def localSenderKey (e : ScanRecord) : Option String :=
  let s := strOr e.sender (strOr e.email_from "")
  if s = "" then none else some s

/-- The sender keys contributed by the local scan history. -/
def senderKeys (h : List ScanRecord) : List String := h.filterMap localSenderKey

/-- `bySender` of `computeMetrics`. -/
def bySender (h : List ScanRecord) : List (String × ℕ) := countsOf (senderKeys h)

/-- `(e.matched_rules || '').split(',').map(r => r.trim()).filter(Boolean)`. -/
def rulesOf (e : ScanRecord) : List String :=
  (((splitCh ',' (strOr e.matched_rules "").data).map
      (fun cs => String.mk (trimChars cs))).filter (fun s => s ≠ ""))

/-- The rule tokens contributed by the local scan history (`byRule` loop
iterates `scanHistory`). -/
def ruleKeys (h : List ScanRecord) : List String := h.flatMap rulesOf

/-- `byRule` of `computeMetrics` — computed from `scanHistory`. -/
def byRule (h : List ScanRecord) : List (String × ℕ) := countsOf (ruleKeys h)

/-- JS `Math.round`: round half toward positive infinity. -/
def jsRound (q : ℚ) : ℤ := ⌊q + 1/2⌋

/-- `fmt = n => isNaN(n) ? 0 : Math.round(n * 100) / 100` — rounding to
two decimals (the `isNaN` guard has no rational counterpart). -/
def fmt (q : ℚ) : ℚ := ((jsRound (q * 100) : ℤ) : ℚ) / 100

/-- `avg = arr => arr.length ? arr.reduce((a, b) => a + b, 0) / arr.length : 0`. -/
def avg (l : List ℚ) : ℚ := if l.length = 0 then 0 else l.sum / l.length

/-- The record of values returned by `computeMetrics`. -/
structure Metrics where
  high : ℕ
  med : ℕ
  low : ℕ
  perDay : List (String × ℕ)
  bySender : List (String × ℕ)
  byRule : List (String × ℕ)
  quarantine : ℕ
  total : ℕ
  highPct : ℚ

/-- The `computeMetrics` function of `dashboard.js`, over the local
`scanHistory`. -/
def computeMetrics (scanHistory : List ScanRecord) : Metrics :=
  let scs := scores scanHistory
  let high := (scs.filter (fun s => decide (7 ≤ s))).length
  let med := (scs.filter (fun s => decide (4 ≤ s) && decide (s < 7))).length
  let low := (scs.filter (fun s => decide (s < 4))).length
  let total := scs.length
  { high := high
    med := med
    low := low
    perDay := perDay scanHistory
    bySender := bySender scanHistory
    byRule := byRule scanHistory
    quarantine := (scanHistory.filter (fun e => e.quarantine)).length
    total := total
    highPct := if total = 0 then 0 else fmt (((high : ℚ) / (total : ℚ)) * 100) }

/-- Stable insertion of an element into a count-descending list: the new
element is placed before the first entry whose count is not larger.
Because `sortDesc` inserts the elements back to front, an element that
occurs earlier in the original list is inserted later and therefore ends
up before any entry with an equal count. -/
def insertDesc (x : String × ℕ) : List (String × ℕ) → List (String × ℕ)
  | [] => [x]
  | y :: ys => if x.2 < y.2 then y :: insertDesc x ys else x :: y :: ys

/-- Stable sort descending by count — the behaviour of
`Object.entries(obj).sort((a, b) => b[1] - a[1])` on a JS object
(`Object.entries` yields entries in key-insertion order and
`Array.prototype.sort` is stable). -/
def sortDesc (l : List (String × ℕ)) : List (String × ℕ) := l.foldr insertDesc []

/-- `Object.entries(obj).sort((a, b) => b[1] - a[1]).slice(0, 7)`. -/
def rankTop (m : List (String × ℕ)) : List (String × ℕ) := (sortDesc m).take 7

/-- The `risky` ranking of `renderCharts` (Top Threat Senders chart),
from the local `bySender` map. -/
def topThreatSenders (scanHistory : List ScanRecord) : List (String × ℕ) :=
  rankTop (bySender scanHistory)

/-- `collective.forEach(r => { if (r.sender) ... })` — the identity a
collective record is counted under, if any; only the `sender` field is
consulted. -/
def collSenderKey (r : ScanRecord) : Option String :=
  match r.sender with
  | some s => if s = "" then none else some s
  | none => none

/-- The sender keys contributed by the collective pool. -/
def collSenderKeys (collective : List ScanRecord) : List String :=
  collective.filterMap collSenderKey

/-- The `collSenders` counting map of `renderCharts`. -/
def collSenders (collective : List ScanRecord) : List (String × ℕ) :=
  countsOf (collSenderKeys collective)

/-- The `topSenders` ranking of `renderCharts` (community chart), from
the collective pool. -/
def topSendersCollective (collective : List ScanRecord) : List (String × ℕ) :=
  rankTop (collSenders collective)

/-- The `topRules` ranking of `renderCharts`. Both `scanHistory` and
`collective` are in scope in `renderCharts`; the ranking is built from
`byRule`, which iterates `scanHistory`. -/
def topRulesChart (scanHistory collective : List ScanRecord) : List (String × ℕ) :=
  rankTop (byRule scanHistory)

/-- `e.ai_details?.zero_shot || e.score || 0` in `updateAIMetrics`. -/
def zsVal (e : ScanRecord) : ℚ := numOr e.zero_shot (numOr e.score 0)

/-- `e.ai_details?.transformer || e.score || 0` in `updateAIMetrics`. -/
def trVal (e : ScanRecord) : ℚ := numOr e.transformer (numOr e.score 0)

/-- `e.ai_details?.hybrid_score || e.score || 0` in `updateAIMetrics`. -/
def hyVal (e : ScanRecord) : ℚ := numOr e.hybrid_score (numOr e.score 0)

/-- The `zs` series of `updateAIMetrics`. -/
def zsList (h : List ScanRecord) : List ℚ := h.map zsVal

/-- The `tr` series of `updateAIMetrics`. -/
def trList (h : List ScanRecord) : List ℚ := h.map trVal

/-- The `hy` series of `updateAIMetrics`. -/
def hyList (h : List ScanRecord) : List ℚ := h.map hyVal

/-- `zsAvg = fmt(avg(zs))`. -/
def zsAvg (h : List ScanRecord) : ℚ := fmt (avg (zsList h))

/-- `trAvg = fmt(avg(tr))`. -/
def trAvg (h : List ScanRecord) : ℚ := fmt (avg (trList h))

/-- `hyAvg = fmt(avg(hy))`. -/
def hyAvg (h : List ScanRecord) : ℚ := fmt (avg (hyList h))

/-- `overall = Math.round(hyAvg)`. -/
def aiOverall (h : List ScanRecord) : ℤ := jsRound (hyAvg h)

/-- The trend block of `updateAIMetrics`, as a function of the series it
is applied to: `const sorted = hy.slice(-5); if (sorted.length >= 2) ...`.
`slice(-5)` keeps the last five elements (the whole series if shorter). -/
def classifyTrend (hy : List ℚ) : String :=
  let sorted := hy.drop (hy.length - 5)
  if 2 ≤ sorted.length then
    let diff := sorted.getD (sorted.length - 1) 0 - sorted.getD 0 0
    if 1 < diff then "Rising"
    else if diff < -1 then "Falling"
    else "Stable"
  else "Stable"

/-- The `#aiTrend` value published by `updateAIMetrics`. -/
def aiTrend (h : List ScanRecord) : String := classifyTrend (hyList h)

/-- The `#aiRiskLabel` text published by `updateAIMetrics`. -/
def aiRiskLabel (h : List ScanRecord) : String :=
  if aiOverall h < 4 then "Safe"
  else if aiOverall h < 7 then "Medium"
  else "High Risk"

/-- `fmt(avgScore * 3.1)` — the weighted threat index of
`updateDashboard`. -/
def threatIndex (h : List ScanRecord) : ℚ := fmt (avg (scores h) * (31/10))

/-- Scheduler phase: a refresh cycle is either in flight or not. -/
inductive Phase where
  | idle
  | refreshing

/-- The dashboard state held between refreshes: the two record
collections, the metrics last written to the page by `updateDashboard`,
and the scheduler phase. -/
structure DashState where
  scanHistory : List ScanRecord
  collective : List ScanRecord
  published : Metrics
  phase : Phase

/-- Outcome of the `fetch('/dashboard?json=1')` call of the auto-refresh
tick: a parsed JSON body whose two collections may each be absent, a
non-ok HTTP response, or a thrown network error. -/
inductive FetchResult where
  | success (scan_history : Option (List ScanRecord))
      (collective_stats : Option (List ScanRecord))
  | httpError
  | netError

/-- A fetch outcome that does not deliver data. -/
def FetchResult.failed : FetchResult → Bool
  | .success _ _ => false
  | .httpError => true
  | .netError => true

/-- One auto-refresh cycle of the `setInterval` callback: on a non-ok
response the callback returns early (`if (!r.ok) return;`), on a thrown
error the `catch` only logs — in both cases nothing is assigned. On
success the two collections are replaced (`d.scan_history || []`,
`d.collective_stats || []`; an array is always truthy, so only a missing
field falls back) and `updateDashboard` republishes the metrics. The
callback runs to completion either way, so the cycle always ends idle. -/
def autoRefreshTick (st : DashState) (r : FetchResult) : DashState :=
  match r with
  | .success sh cs =>
    let newHist := sh.getD []
    { scanHistory := newHist
      collective := cs.getD []
      published := computeMetrics newHist
      phase := .idle }
  | .httpError => { st with phase := .idle }
  | .netError => { st with phase := .idle }

/-- The polling loop of `handleRescan` in `frontend/src/pages/Dashboard.js`:
`setInterval` with a 2000 ms period; each tick increments `polls`, issues
one `fetchDashboardData()` poll, and clears the interval once
`polls >= 5`. The result is the list of polls as pairs (poll number,
milliseconds after the rescan request) together with whether the loop
cleared its interval and reset `rescanLoading` (returned to idle).
`fuel` bounds the number of interval ticks considered and is consumed
one tick at a time. -/
def rescanRun : ℕ → ℕ → List (ℕ × ℕ) × Bool
  | 0, _ => ([], false)
  | fuel + 1, polls =>
    let p := polls + 1
    if 5 ≤ p then ([(p, 2000 * p)], true)
    else
      let r := rescanRun fuel p
      ((p, 2000 * p) :: r.1, r.2)

/-- The whole manual rescan of `handleRescan`: if the `POST /rescan`
request fails, the `catch` resets `rescanLoading` and no poll is issued;
otherwise the polling loop runs starting from `polls = 0`. -/
def handleRescan (rescanOk : Bool) (fuel : ℕ) : List (ℕ × ℕ) × Bool :=
  if rescanOk then rescanRun fuel 0 else ([], true)

/-- Modelled from the spec: "first-seen order" of the distinct
identities of a key sequence — each key is kept at the position of its
first occurrence. Used to compare the key order produced by the counting
pass against the spec's ranking discipline. -/
def firstSeenOrder (keys : List String) : List String :=
  keys.foldl (fun acc k => if k ∈ acc then acc else acc ++ [k]) []

/-- The ranking discipline of the spec for a ranked list `out` built
from a counting map `m` over the key sequence `keys`: descending by
count, at most 7 entries, ties kept in the map's order (for each count,
the ranked entries with that count are a prefix of the map's entries
with that count), and the map lists identities in first-seen order. -/
def RankingOK (out m : List (String × ℕ)) (keys : List String) : Prop :=
  out.Pairwise (fun a b => b.2 ≤ a.2) ∧
  out.length ≤ 7 ∧
  (∀ c : ℕ, out.filter (fun p => p.2 = c) <+: m.filter (fun p => p.2 = c)) ∧
  m.map Prod.fst = firstSeenOrder keys

/-- The trend window delta: last element minus first element of the
last-five window of a series (`0` stands in for an element of an empty
window; the classifier only reads the delta when the window has at
least two elements). -/
def trendDelta (s : List ℚ) : ℚ :=
  let w := s.drop (s.length - 5)
  w.getD (w.length - 1) 0 - w.getD 0 0

/-- A record with every optional field absent. -/
def emptyRecord : ScanRecord := {}

/-- First value stored under a key in an association list, `0` when the
key is absent — `obj[k] || 0` on the modelled JS object. -/
def lookupC : List (String × ℕ) → String → ℕ
  | [], _ => 0
  | (k', c) :: rest, k => if k' = k then c else lookupC rest k

/-- A JSON value as a raw dashboard field may carry it. The dashboard
code only ever handles strings in the fields it calls string methods on,
but the backend JSON could hold a number, a boolean or null as well (an
object or an array behaves like any other truthy non-string for the
accesses modelled here). -/
inductive JsVal where
  | vstr (s : String)
  | vnum (q : ℚ)
  | vbool (b : Bool)
  | vnull

/-- JS truthiness of a JSON value: the empty string, 0, false and null
are falsy. -/
def jsTruthy : JsVal → Bool
  | .vstr s => !(decide (s = ""))
  | .vnum q => !(decide (q = 0))
  | .vbool b => b
  | .vnull => false

/-- JS `v || d` on an optional JSON value. -/
def valOr : Option JsVal → JsVal → JsVal
  | some w, d => if jsTruthy w then w else d
  | none, d => d

/-- JS `.split(',').map(r => r.trim()).filter(Boolean)` applied to a
JSON value: only a string has a split method — any other value throws a
TypeError, modelled as `none`. -/
def trySplitComma : JsVal → Option (List String)
  | .vstr s =>
    some (((splitCh ',' s.data).map (fun cs => String.mk (trimChars cs))).filter
      (fun t => t ≠ ""))
  | _ => none

/-- JS `.split('T')[0]` applied to a JSON value: throws a TypeError
unless the value is a string. -/
def trySplitT : JsVal → Option String
  | .vstr s => some (String.mk ((splitCh 'T' s.data).headD []))
  | _ => none

/-- A scan record as the backend JSON may actually deliver it: the two
fields on which `computeMetrics` calls string methods (`timestamp` and
`matched_rules`) may carry any JSON value. -/
structure RawRecord where
  sender : Option String := none
  email_from : Option String := none
  score : Option ℚ := none
  risk_level : Option String := none
  timestamp : Option JsVal := none
  matched_rules : Option JsVal := none
  quarantine : Bool := false
  zero_shot : Option ℚ := none
  transformer : Option ℚ := none
  hybrid_score : Option ℚ := none

/-- `(e.matched_rules || '').split(',').map(r => r.trim()).filter(Boolean)`
on a raw record; `none` is a thrown TypeError. -/
def rawRulesOf (e : RawRecord) : Option (List String) :=
  trySplitComma (valOr e.matched_rules (.vstr ""))

/-- `(e.timestamp || '').split('T')[0]` on a raw record; `none` is a
thrown TypeError. -/
def rawDateOf (e : RawRecord) : Option String :=
  trySplitT (valOr e.timestamp (.vstr ""))

/-- Sequential fallible map over a record loop: the first thrown
TypeError aborts the loop and propagates. -/
def mapOrThrow {α β : Type} (f : α → Option β) : List α → Option (List β)
  | [] => some []
  | a :: t =>
    match f a, mapOrThrow f t with
    | some b, some bs => some (b :: bs)
    | _, _ => none

/-- `computeMetrics` over raw records: the per-day and per-rule loops
call string methods that throw a TypeError on a truthy non-string field
value, in which case the exception propagates out of `computeMetrics`
and no metrics are produced (`none`); otherwise the result is exactly
the `Metrics` value of `computeMetrics`. -/
def computeMetricsRaw (h : List RawRecord) : Option Metrics :=
  match mapOrThrow rawDateOf h, mapOrThrow rawRulesOf h with
  | some dates, some ruleLists =>
    let scs := h.map (fun e => numOr e.score 0)
    let high := (scs.filter (fun s => decide (7 ≤ s))).length
    let med := (scs.filter (fun s => decide (4 ≤ s) && decide (s < 7))).length
    let low := (scs.filter (fun s => decide (s < 4))).length
    let total := scs.length
    some
      { high := high
        med := med
        low := low
        perDay := countsOf (dates.filter (fun d => d ≠ ""))
        bySender := countsOf (h.filterMap (fun e =>
          let s := strOr e.sender (strOr e.email_from "")
          if s = "" then none else some s))
        byRule := countsOf ruleLists.flatten
        quarantine := (h.filter (fun e => e.quarantine)).length
        total := total
        highPct := if total = 0 then 0 else fmt (((high : ℚ) / (total : ℚ)) * 100) }
  | _, _ => none

/-- Embed a record whose `timestamp` and `matched_rules` are strings or
absent into a raw record. -/
def rawOf (e : ScanRecord) : RawRecord :=
  { sender := e.sender
    email_from := e.email_from
    score := e.score
    risk_level := e.risk_level
    timestamp := e.timestamp.map JsVal.vstr
    matched_rules := e.matched_rules.map JsVal.vstr
    quarantine := e.quarantine
    zero_shot := e.zero_shot
    transformer := e.transformer
    hybrid_score := e.hybrid_score }

theorem mem_insertDesc {a x : String × ℕ} {l : List (String × ℕ)} :
    a ∈ insertDesc x l ↔ a = x ∨ a ∈ l := by
  induction l with
  | nil => simp [insertDesc]
  | cons y ys ih =>
    by_cases h : x.2 < y.2 <;> simp [insertDesc, h, ih] <;> tauto

theorem pairwise_insertDesc {x : String × ℕ} {l : List (String × ℕ)}
    (hl : l.Pairwise (fun a b => b.2 ≤ a.2)) :
    (insertDesc x l).Pairwise (fun a b => b.2 ≤ a.2) := by
  induction l with
  | nil => simp [insertDesc]
  | cons y ys ih =>
    rcases List.pairwise_cons.mp hl with ⟨hy, hys⟩
    by_cases h : x.2 < y.2
    · simp only [insertDesc, if_pos h]
      refine List.pairwise_cons.mpr ⟨?_, ih hys⟩
      intro b hb
      rcases mem_insertDesc.mp hb with rfl | hb
      · omega
      · exact hy b hb
    · simp only [insertDesc, if_neg h]
      refine List.pairwise_cons.mpr ⟨?_, hl⟩
      intro b hb
      rcases List.mem_cons.mp hb with rfl | hb
      · omega
      · have := hy b hb
        omega

theorem sortDesc_pairwise (l : List (String × ℕ)) :
    (sortDesc l).Pairwise (fun a b => b.2 ≤ a.2) := by
  induction l with
  | nil => simp [sortDesc]
  | cons x xs ih => exact pairwise_insertDesc ih

theorem filter_insertDesc (x : String × ℕ) (l : List (String × ℕ)) (c : ℕ) :
    (insertDesc x l).filter (fun q => q.2 = c)
      = if x.2 = c then x :: l.filter (fun q => q.2 = c)
        else l.filter (fun q => q.2 = c) := by
  induction l with
  | nil => by_cases hx : x.2 = c <;> simp [insertDesc, hx]
  | cons y ys ih =>
    by_cases h : x.2 < y.2
    · simp only [insertDesc, if_pos h, List.filter_cons]
      by_cases hx : x.2 = c
      · have hy : ¬ y.2 = c := by omega
        simp [hx, hy, ih]
      · by_cases hy : y.2 = c <;> simp [hx, hy, ih]
    · simp only [insertDesc, if_neg h, List.filter_cons]
      by_cases hx : x.2 = c <;> by_cases hy : y.2 = c <;> simp [hx, hy]

theorem filter_sortDesc (l : List (String × ℕ)) (c : ℕ) :
    (sortDesc l).filter (fun q => q.2 = c) = l.filter (fun q => q.2 = c) := by
  induction l with
  | nil => rfl
  | cons x xs ih =>
    show ((insertDesc x (sortDesc xs)).filter _) = _
    rw [filter_insertDesc]
    by_cases hx : x.2 = c <;> simp [hx, ih, List.filter_cons]

theorem mem_sortDesc {a : String × ℕ} {l : List (String × ℕ)} :
    a ∈ sortDesc l ↔ a ∈ l := by
  induction l with
  | nil => simp [sortDesc]
  | cons x xs ih =>
    show a ∈ insertDesc x (sortDesc xs) ↔ _
    rw [mem_insertDesc]
    simp [ih, or_comm]

theorem rankTop_pairwise (m : List (String × ℕ)) :
    (rankTop m).Pairwise (fun a b => b.2 ≤ a.2) :=
  List.Pairwise.sublist (List.take_sublist 7 (sortDesc m)) (sortDesc_pairwise m)

theorem rankTop_length (m : List (String × ℕ)) : (rankTop m).length ≤ 7 := by
  simp only [rankTop, List.length_take]
  omega

theorem rankTop_filter_prefix (m : List (String × ℕ)) (c : ℕ) :
    (rankTop m).filter (fun q => q.2 = c) <+: m.filter (fun q => q.2 = c) := by
  refine ⟨((sortDesc m).drop 7).filter (fun q => q.2 = c), ?_⟩
  rw [← filter_sortDesc m c, rankTop, ← List.filter_append, List.take_append_drop]

theorem mem_of_mem_rankTop {p : String × ℕ} {m : List (String × ℕ)}
    (h : p ∈ rankTop m) : p ∈ m :=
  mem_sortDesc.mp ((List.take_sublist 7 (sortDesc m)).mem h)

theorem map_fst_bump (m : List (String × ℕ)) (k : String) :
    (bump m k).map Prod.fst =
      if k ∈ m.map Prod.fst then m.map Prod.fst else m.map Prod.fst ++ [k] := by
  induction m with
  | nil => simp [bump]
  | cons y rest ih =>
    obtain ⟨k', c⟩ := y
    by_cases h : k' = k
    · subst h
      simp [bump]
    · have h' : ¬ k = k' := fun e => h e.symm
      by_cases h2 : k ∈ rest.map Prod.fst <;> simp [bump, h, h', h2, ih]

theorem map_fst_foldl_bump (keys : List String) :
    ∀ m : List (String × ℕ),
      (keys.foldl bump m).map Prod.fst =
        keys.foldl (fun acc k => if k ∈ acc then acc else acc ++ [k])
          (m.map Prod.fst) := by
  induction keys with
  | nil => intro m; rfl
  | cons a keys ih =>
    intro m
    simp only [List.foldl_cons]
    rw [ih (bump m a), map_fst_bump]

theorem map_fst_countsOf (keys : List String) :
    (countsOf keys).map Prod.fst = firstSeenOrder keys := by
  simpa [countsOf, firstSeenOrder] using map_fst_foldl_bump keys []

theorem nodup_firstSeen_step (acc : List String) (k : String) (h : acc.Nodup) :
    (if k ∈ acc then acc else acc ++ [k]).Nodup := by
  by_cases hk : k ∈ acc
  · simpa [hk]
  · rw [if_neg hk]
    refine List.Nodup.append h (List.nodup_singleton k) ?_
    intro e he he2
    rw [List.mem_singleton] at he2
    subst he2
    exact hk he

theorem nodup_foldl_firstSeen (keys : List String) :
    ∀ acc : List String, acc.Nodup →
      (keys.foldl (fun acc k => if k ∈ acc then acc else acc ++ [k]) acc).Nodup := by
  induction keys with
  | nil => intro acc h; exact h
  | cons a keys ih =>
    intro acc h
    exact ih _ (nodup_firstSeen_step acc a h)

theorem nodup_map_fst_countsOf (keys : List String) :
    ((countsOf keys).map Prod.fst).Nodup := by
  rw [map_fst_countsOf, firstSeenOrder]
  exact nodup_foldl_firstSeen keys [] (by simp)

theorem lookupC_bump_self (m : List (String × ℕ)) (k : String) :
    lookupC (bump m k) k = lookupC m k + 1 := by
  induction m with
  | nil => simp [bump, lookupC]
  | cons y rest ih =>
    obtain ⟨k', c⟩ := y
    by_cases h : k' = k <;> simp [bump, lookupC, h, ih]

theorem lookupC_bump_ne (m : List (String × ℕ)) {j k : String} (h : j ≠ k) :
    lookupC (bump m k) j = lookupC m j := by
  have h' : k ≠ j := Ne.symm h
  induction m with
  | nil => simp [bump, lookupC, h']
  | cons y rest ih =>
    obtain ⟨k', c⟩ := y
    by_cases h2 : k' = k
    · subst h2
      simp [bump, lookupC, h']
    · simp [bump, lookupC, h2, ih]

theorem lookupC_foldl_bump (keys : List String) :
    ∀ (m : List (String × ℕ)) (k : String),
      lookupC (keys.foldl bump m) k = lookupC m k + keys.count k := by
  induction keys with
  | nil => intro m k; simp
  | cons a keys ih =>
    intro m k
    simp only [List.foldl_cons]
    rw [ih (bump m a) k]
    by_cases h : a = k
    · subst h
      rw [lookupC_bump_self]
      simp [List.count_cons]
      omega
    · rw [lookupC_bump_ne m (fun e => h e.symm)]
      simp [List.count_cons, h]

theorem eq_lookupC_of_mem {m : List (String × ℕ)} {k : String} {c : ℕ}
    (hm : (k, c) ∈ m) (hnd : (m.map Prod.fst).Nodup) : c = lookupC m k := by
  induction m with
  | nil => cases hm
  | cons y rest ih =>
    obtain ⟨k', c'⟩ := y
    rcases List.mem_cons.mp hm with he | hm'
    · injection he with h1 h2
      subst h1
      subst h2
      simp [lookupC]
    · have hk : k ∈ rest.map Prod.fst :=
        List.mem_map.mpr ⟨(k, c), hm', rfl⟩
      rw [List.map_cons, List.nodup_cons] at hnd
      have hne : k' ≠ k := fun e => hnd.1 (e ▸ hk)
      simp only [lookupC, if_neg hne]
      exact ih hm' hnd.2

theorem count_countsOf {keys : List String} {k : String} {c : ℕ}
    (h : (k, c) ∈ countsOf keys) : c = keys.count k := by
  have := eq_lookupC_of_mem h (nodup_map_fst_countsOf keys)
  rw [this, countsOf, lookupC_foldl_bump keys [] k]
  simp [lookupC]

theorem rankingOK_rankTop (keys : List String) :
    RankingOK (rankTop (countsOf keys)) (countsOf keys) keys :=
  ⟨rankTop_pairwise _, rankTop_length _,
    fun c => rankTop_filter_prefix _ c, map_fst_countsOf keys⟩

theorem numOr_chain_cases (a b : Option ℚ) :
    (∀ v : ℚ, a = some v → v ≠ 0 → numOr a (numOr b 0) = v) ∧
    ((a = none ∨ a = some 0) →
      (∀ s : ℚ, b = some s → s ≠ 0 → numOr a (numOr b 0) = s) ∧
      ((b = none ∨ b = some 0) → numOr a (numOr b 0) = 0)) := by
  refine ⟨?_, ?_⟩
  · rintro v rfl hv
    simp [numOr, hv]
  · intro ha
    have hA : numOr a (numOr b 0) = numOr b 0 := by
      rcases ha with rfl | rfl <;> simp [numOr]
    refine ⟨?_, ?_⟩
    · rintro s rfl hs
      rw [hA]
      simp [numOr, hs]
    · intro hb
      rw [hA]
      rcases hb with rfl | rfl <;> simp [numOr]

/-- C5: when both input collections are empty, aggregation succeeds and
yields totalScans = 0, highRiskPercent = 0, threatIndex = 0,
aiRiskLabel = Safe and aiTrend = Stable; the ratios and averages
special-case the empty input to 0. -/
theorem C5_empty_input_defaults :
    (computeMetrics []).total = 0 ∧
    (computeMetrics []).highPct = 0 ∧
    threatIndex [] = 0 ∧
    aiRiskLabel [] = "Safe" ∧
    aiTrend [] = "Stable" ∧
    avg [] = 0 ∧
    topSendersCollective [] = [] ∧
    topRulesChart [] [] = [] := by
  refine ⟨rfl, ?_, ?_, ?_, rfl, rfl, rfl, rfl⟩
  · norm_num [computeMetrics, scores, fmt, jsRound]
  · norm_num [threatIndex, scores, avg, fmt, jsRound]
  · norm_num [aiRiskLabel, aiOverall, hyAvg, hyList, avg, fmt, jsRound]

/-- C3: the trend classifier takes the last five elements of the series
(fewer if shorter), compares the delta between the last and first element
of that window against the thresholds 1 and negative 1, and returns
Stable on any series with fewer than two elements; the listed example
series classify as Rising, Falling and Stable, and the dashboard trend is
the classifier applied to the per-record hybrid series. -/
theorem C3_trend_classifier :
    (∀ s : List ℚ, s.length < 2 → classifyTrend s = "Stable") ∧
    (∀ s : List ℚ, 2 ≤ s.length →
      ((classifyTrend s = "Rising" ↔ 1 < trendDelta s) ∧
        (classifyTrend s = "Falling" ↔ trendDelta s < -1) ∧
        (classifyTrend s = "Stable" ↔ -1 ≤ trendDelta s ∧ trendDelta s ≤ 1))) ∧
    classifyTrend [1, 1, 1, 1, 3] = "Rising" ∧
    classifyTrend [5, 5, 5, 5, 3] = "Falling" ∧
    classifyTrend [5, 5, 5, 5, 5] = "Stable" ∧
    (∀ h : List ScanRecord, aiTrend h = classifyTrend (hyList h)) := by
  refine ⟨?_, ?_, ?_, ?_, ?_, fun h => rfl⟩
  · intro s hs
    have hlen : ¬ 2 ≤ (s.drop (s.length - 5)).length := by
      rw [List.length_drop]
      omega
    simp only [classifyTrend]
    rw [if_neg hlen]
  · intro s hs
    have hw : 2 ≤ (s.drop (s.length - 5)).length := by
      rw [List.length_drop]
      omega
    simp only [classifyTrend, trendDelta]
    rw [if_pos hw]
    split_ifs with h1 h2
    · refine ⟨iff_of_true rfl h1, iff_of_false (by decide) ?_, iff_of_false (by decide) ?_⟩
      · intro h
        linarith
      · intro h
        exact absurd h1 (not_lt.mpr h.2)
    · exact ⟨iff_of_false (by decide) h1, iff_of_true rfl h2,
        iff_of_false (by decide) (fun h => absurd h2 (not_lt.mpr h.1))⟩
    · exact ⟨iff_of_false (by decide) h1, iff_of_false (by decide) h2,
        iff_of_true rfl ⟨not_lt.mp h2, not_lt.mp h1⟩⟩
  · norm_num [classifyTrend, List.getD]
  · norm_num [classifyTrend, List.getD]
  · norm_num [classifyTrend, List.getD]

/-- Witness for C3: the classifier evaluated at the one-element series
[3], whose length is below the two-element window minimum. -/
theorem C3_trend_classifier_witness : classifyTrend [(3 : ℚ)] = "Stable" :=
  C3_trend_classifier.1 [(3 : ℚ)] (by norm_num)

/-- Counterexample for C2: a record with a present zero sub-score and
score 5 contributes 5 — the record's score — to the zero-shot average,
not the sub-score 0, because JS `||` treats the number 0 as missing. -/
theorem C2_ai_fallback_cex :
    zsVal { score := some 5, zero_shot := some 0 } = 5 ∧
    zsAvg [{ score := some 5, zero_shot := some 0 }] = 5 ∧
    (5 : ℚ) ≠ 0 := by
  refine ⟨?_, ?_, by norm_num⟩
  · norm_num [zsVal, numOr]
  · norm_num [zsAvg, avg, zsList, zsVal, numOr, fmt, jsRound]

/-- C2 amended: each of the three aiAverages inputs uses the record's
corresponding sub-score when it is present and nonzero, falls back to
the record's score when the sub-score is missing or zero, and to 0 when
the score is also missing or zero. -/
theorem C2_ai_fallback_amended :
    ∀ e : ScanRecord,
      ((∀ v : ℚ, e.zero_shot = some v → v ≠ 0 → zsVal e = v) ∧
        ((e.zero_shot = none ∨ e.zero_shot = some 0) →
          (∀ s : ℚ, e.score = some s → s ≠ 0 → zsVal e = s) ∧
          ((e.score = none ∨ e.score = some 0) → zsVal e = 0))) ∧
      ((∀ v : ℚ, e.transformer = some v → v ≠ 0 → trVal e = v) ∧
        ((e.transformer = none ∨ e.transformer = some 0) →
          (∀ s : ℚ, e.score = some s → s ≠ 0 → trVal e = s) ∧
          ((e.score = none ∨ e.score = some 0) → trVal e = 0))) ∧
      ((∀ v : ℚ, e.hybrid_score = some v → v ≠ 0 → hyVal e = v) ∧
        ((e.hybrid_score = none ∨ e.hybrid_score = some 0) →
          (∀ s : ℚ, e.score = some s → s ≠ 0 → hyVal e = s) ∧
          ((e.score = none ∨ e.score = some 0) → hyVal e = 0))) :=
  fun e =>
    ⟨numOr_chain_cases e.zero_shot e.score,
      numOr_chain_cases e.transformer e.score,
      numOr_chain_cases e.hybrid_score e.score⟩

/-- Witness for C2 amended: a record with a missing zero-shot sub-score
and score 3 contributes 3 to the zero-shot average. -/
theorem C2_ai_fallback_amended_witness :
    zsVal { score := some 3, zero_shot := none } = 3 :=
  ((C2_ai_fallback_amended { score := some 3, zero_shot := none }).1.2
      (Or.inl rfl)).1 3 rfl (by norm_num)

theorem computeMetrics_high (h : List ScanRecord) :
    (computeMetrics h).high = ((scores h).filter (fun s => decide (7 ≤ s))).length := rfl

theorem computeMetrics_med (h : List ScanRecord) :
    (computeMetrics h).med
      = ((scores h).filter (fun s => decide (4 ≤ s) && decide (s < 7))).length := rfl

theorem computeMetrics_low (h : List ScanRecord) :
    (computeMetrics h).low = ((scores h).filter (fun s => decide (s < 4))).length := rfl

theorem computeMetrics_total (h : List ScanRecord) :
    (computeMetrics h).total = h.length := by
  simp [computeMetrics, scores]

theorem computeMetrics_perDay (h : List ScanRecord) :
    (computeMetrics h).perDay = perDay h := rfl

theorem filter_score_partition (l : List ℚ) :
    (l.filter (fun s => decide (7 ≤ s))).length
      + (l.filter (fun s => decide (4 ≤ s) && decide (s < 7))).length
      + (l.filter (fun s => decide (s < 4))).length = l.length := by
  induction l with
  | nil => rfl
  | cons a t ih =>
    rcases lt_or_le a 4 with h4 | h4
    · have h7 : ¬ 7 ≤ a := by linarith
      have h4' : ¬ 4 ≤ a := not_le.mpr h4
      simp only [List.filter_cons]
      simp [h7, h4', h4]
      omega
    · rcases lt_or_le a 7 with h7 | h7
      · have hn4 : ¬ a < 4 := not_lt.mpr h4
        have hn7 : ¬ 7 ≤ a := not_le.mpr h7
        simp only [List.filter_cons]
        simp [h4, h7, hn4, hn7]
        omega
      · have hn4 : ¬ a < 4 := by linarith
        have hn7 : ¬ a < 7 := not_lt.mpr h7
        simp only [List.filter_cons]
        simp [h7, hn4, hn7]
        omega

theorem scores_insert (l1 l2 : List ScanRecord) (r : ScanRecord) :
    scores (l1 ++ r :: l2) = scores l1 ++ scoreVal r :: scores l2 := by
  simp [scores]

theorem scores_append (l1 l2 : List ScanRecord) :
    scores (l1 ++ l2) = scores l1 ++ scores l2 := by
  simp [scores]

/-- C4: the risk histogram partitions the local records by score with the
high side inclusive — a score of exactly 7 goes to High and not Medium, a
score of exactly 4 goes to Medium and not Low, an absent score counts as
0, and the three bucket counts always sum to totalScans. -/
theorem C4_risk_histogram :
    (∀ h : List ScanRecord,
      (computeMetrics h).high + (computeMetrics h).med + (computeMetrics h).low
        = (computeMetrics h).total) ∧
    (∀ (l1 l2 : List ScanRecord) (r : ScanRecord), r.score = some 7 →
      (computeMetrics (l1 ++ r :: l2)).high = (computeMetrics (l1 ++ l2)).high + 1 ∧
      (computeMetrics (l1 ++ r :: l2)).med = (computeMetrics (l1 ++ l2)).med ∧
      (computeMetrics (l1 ++ r :: l2)).low = (computeMetrics (l1 ++ l2)).low) ∧
    (∀ (l1 l2 : List ScanRecord) (r : ScanRecord), r.score = some 4 →
      (computeMetrics (l1 ++ r :: l2)).med = (computeMetrics (l1 ++ l2)).med + 1 ∧
      (computeMetrics (l1 ++ r :: l2)).high = (computeMetrics (l1 ++ l2)).high ∧
      (computeMetrics (l1 ++ r :: l2)).low = (computeMetrics (l1 ++ l2)).low) ∧
    (∀ r : ScanRecord, r.score = none → scoreVal r = 0) := by
  refine ⟨?_, ?_, ?_, ?_⟩
  · intro h
    have hp := filter_score_partition (scores h)
    rw [computeMetrics_high, computeMetrics_med, computeMetrics_low,
      computeMetrics_total, hp]
    simp [scores]
  · intro l1 l2 r hr
    have hsc : scoreVal r = 7 := by
      norm_num [scoreVal, numOr, hr]
    refine ⟨?_, ?_, ?_⟩
    · rw [computeMetrics_high, computeMetrics_high, scores_insert, hsc, scores_append]
      simp only [List.filter_append, List.filter_cons, List.length_append]
      norm_num
      all_goals omega
    · rw [computeMetrics_med, computeMetrics_med, scores_insert, hsc, scores_append]
      simp only [List.filter_append, List.filter_cons, List.length_append]
      norm_num
      all_goals omega
    · rw [computeMetrics_low, computeMetrics_low, scores_insert, hsc, scores_append]
      simp only [List.filter_append, List.filter_cons, List.length_append]
      norm_num
      all_goals omega
  · intro l1 l2 r hr
    have hsc : scoreVal r = 4 := by
      norm_num [scoreVal, numOr, hr]
    refine ⟨?_, ?_, ?_⟩
    · rw [computeMetrics_med, computeMetrics_med, scores_insert, hsc, scores_append]
      simp only [List.filter_append, List.filter_cons, List.length_append]
      norm_num
      all_goals omega
    · rw [computeMetrics_high, computeMetrics_high, scores_insert, hsc, scores_append]
      simp only [List.filter_append, List.filter_cons, List.length_append]
      norm_num
      all_goals omega
    · rw [computeMetrics_low, computeMetrics_low, scores_insert, hsc, scores_append]
      simp only [List.filter_append, List.filter_cons, List.length_append]
      norm_num
      all_goals omega
  · intro r hr
    simp [scoreVal, numOr, hr]

/-- Witness for C4: a single record with score exactly 7 raises the High
count and leaves Medium and Low untouched. -/
theorem C4_risk_histogram_witness :
    (computeMetrics [{ score := some 7 }]).high = (computeMetrics []).high + 1 ∧
    (computeMetrics [{ score := some 7 }]).med = (computeMetrics []).med ∧
    (computeMetrics [{ score := some 7 }]).low = (computeMetrics []).low :=
  C4_risk_histogram.2.1 [] [] { score := some 7 } rfl

theorem dateOf_none {r : ScanRecord} (h : r.timestamp = none) : dateOf r = "" := by
  rw [dateOf, h]
  rfl

theorem valOr_map_vstr (o : Option String) (d : String) :
    valOr (o.map JsVal.vstr) (.vstr d) = .vstr (strOr o d) := by
  cases o with
  | none => rfl
  | some s => by_cases h : s = "" <;> simp [valOr, jsTruthy, strOr, h]

theorem rawRulesOf_rawOf (e : ScanRecord) :
    rawRulesOf (rawOf e) = some (rulesOf e) := by
  show trySplitComma (valOr (e.matched_rules.map JsVal.vstr) (.vstr "")) = _
  rw [valOr_map_vstr]
  rfl

theorem rawDateOf_rawOf (e : ScanRecord) :
    rawDateOf (rawOf e) = some (dateOf e) := by
  show trySplitT (valOr (e.timestamp.map JsVal.vstr) (.vstr "")) = _
  rw [valOr_map_vstr]
  rfl

theorem mapOrThrow_map_some {α γ β : Type} (g : α → γ) (f : γ → Option β)
    (v : α → β) (hv : ∀ a, f (g a) = some (v a)) (l : List α) :
    mapOrThrow f (l.map g) = some (l.map v) := by
  induction l with
  | nil => rfl
  | cons a t ih => simp [mapOrThrow, hv a, ih]

theorem dayKeys_cons (a : ScanRecord) (t : List ScanRecord) :
    dayKeys (a :: t) = if dateOf a = "" then dayKeys t else dateOf a :: dayKeys t := by
  rw [dayKeys, List.filterMap_cons]
  by_cases hda : dateOf a = "" <;> simp [hda, dayKeys]

theorem filter_map_dateOf (t : List ScanRecord) :
    (t.map dateOf).filter (fun d => d ≠ "") = dayKeys t := by
  induction t with
  | nil => rfl
  | cons a t ih =>
    rw [List.map_cons, List.filter_cons, dayKeys_cons, ← ih]
    by_cases hda : dateOf a = "" <;> simp [hda]

theorem flatten_map_rulesOf (t : List ScanRecord) :
    (t.map rulesOf).flatten = ruleKeys t := by
  induction t with
  | nil => rfl
  | cons a t ih =>
    rw [List.map_cons, List.flatten_cons, ruleKeys, List.flatMap_cons, ih]
    rfl

theorem computeMetricsRaw_map_rawOf (h : List ScanRecord) :
    computeMetricsRaw (h.map rawOf) = some (computeMetrics h) := by
  have hdate := mapOrThrow_map_some rawOf rawDateOf dateOf rawDateOf_rawOf h
  have hrule := mapOrThrow_map_some rawOf rawRulesOf rulesOf rawRulesOf_rawOf h
  have hs : (h.map rawOf).map (fun e => numOr e.score 0) = scores h := by
    rw [List.map_map]
    rfl
  have hb : (h.map rawOf).filterMap (fun e =>
      let s := strOr e.sender (strOr e.email_from "")
      if s = "" then none else some s) = senderKeys h := by
    rw [List.filterMap_map]
    rfl
  have hq : ((h.map rawOf).filter (fun e => e.quarantine)).length
      = (h.filter (fun e => e.quarantine)).length := by
    rw [List.filter_map, List.length_map]
    rfl
  rw [computeMetricsRaw, hdate, hrule]
  dsimp only
  rw [hs, hb, hq, filter_map_dateOf, flatten_map_rulesOf]
  rfl

/-- Counterexample for C7: a record whose matchedRules field holds the
JSON number 5 — a present, truthy, non-string value — makes
`(e.matched_rules || '').split(',')` throw a TypeError, so computing the
metrics aborts with no result instead of raising no error. -/
theorem C7_malformed_records_cex :
    computeMetricsRaw [{ matched_rules := some (JsVal.vnum 5) }] = none ∧
    rawRulesOf { matched_rules := some (JsVal.vnum 5) } = none :=
  ⟨rfl, rfl⟩

/-- C7 amended: aggregation is total over records with missing or
string-valued fields — for absent score, timestamp, sender and
aiDetails and absent or string-valued matchedRules, the full metrics
set computes without error (the raw computation returns exactly the
metrics value); a record with a missing timestamp contributes to no
scansPerDay bucket, a record with a missing score is treated as score 0
but is still counted in totalScans, and the full pipeline evaluates on
a record with every optional field absent. (A truthy non-string
matchedRules or timestamp value instead throws a TypeError and aborts
the computation.) -/
theorem C7_malformed_records :
    (∀ (l1 l2 : List ScanRecord) (r : ScanRecord),
      r.timestamp = none → r.score = none →
      (computeMetrics (l1 ++ r :: l2)).perDay = (computeMetrics (l1 ++ l2)).perDay ∧
      scoreVal r = 0 ∧
      scores (l1 ++ r :: l2) = scores l1 ++ (0 : ℚ) :: scores l2 ∧
      (computeMetrics (l1 ++ r :: l2)).total = (computeMetrics (l1 ++ l2)).total + 1) ∧
    (∀ h : List ScanRecord, computeMetricsRaw (h.map rawOf) = some (computeMetrics h)) ∧
    (computeMetrics [emptyRecord]).total = 1 ∧
    threatIndex [emptyRecord] = 0 ∧
    aiTrend [emptyRecord] = "Stable" ∧
    topThreatSenders [emptyRecord] = [] ∧
    topRulesChart [emptyRecord] [emptyRecord] = [] ∧
    perDay [emptyRecord] = [] := by
  refine ⟨?_, computeMetricsRaw_map_rawOf, rfl, ?_, rfl, rfl, rfl, rfl⟩
  · intro l1 l2 r ht hs
    have hval : scoreVal r = 0 := by
      simp [scoreVal, numOr, hs]
    refine ⟨?_, hval, ?_, ?_⟩
    · rw [computeMetrics_perDay, computeMetrics_perDay, perDay, perDay]
      have hd : dayKeys (l1 ++ r :: l2) = dayKeys (l1 ++ l2) := by
        rw [dayKeys, dayKeys, List.filterMap_append, List.filterMap_append,
          List.filterMap_cons_none (by simp [dateOf_none ht])]
      rw [hd]
    · rw [scores_insert, hval]
    · rw [computeMetrics_total, computeMetrics_total]
      simp only [List.length_append, List.length_cons]
      omega
  · norm_num [threatIndex, scores, scoreVal, numOr, emptyRecord, avg, fmt, jsRound]

/-- Witness for C7 at a record with every field absent. -/
theorem C7_malformed_records_witness :
    (computeMetrics ([] ++ emptyRecord :: [])).perDay
        = (computeMetrics ([] ++ [])).perDay ∧
    scoreVal emptyRecord = 0 ∧
    scores ([] ++ emptyRecord :: []) = scores [] ++ (0 : ℚ) :: scores [] ∧
    (computeMetrics ([] ++ emptyRecord :: [])).total
        = (computeMetrics ([] ++ [])).total + 1 :=
  C7_malformed_records.1 [] [] emptyRecord rfl rfl

/-- Counterexample for C1: a local record carrying the rule token A makes
topRules list (A, 1) even though no collective record contains the token,
and emptying the local collection while moving the record to the
collective pool changes topRules — local records do influence topRules,
and the counts do not come from the collective pool. -/
theorem C1_topRules_cex :
    topRulesChart [{ matched_rules := some "A" }] [] = [("A", 1)] ∧
    topRulesChart [] [{ matched_rules := some "A" }] = [] ∧
    topRulesChart [{ matched_rules := some "A" }] []
      ≠ topRulesChart [] [{ matched_rules := some "A" }] := by
  refine ⟨by decide, rfl, by decide⟩

/-- C1 amended: the topRules ranking is computed from the local
scanHistory — each (rule, count) entry counts the occurrences of that
trimmed non-empty token across the local records' matchedRules token
lists — and the collective pool has no influence on it. -/
theorem C1_topRules_amended :
    ∀ (scanHistory collective collective' : List ScanRecord),
      topRulesChart scanHistory collective = topRulesChart scanHistory collective' ∧
      ∀ p ∈ topRulesChart scanHistory collective,
        p.2 = (ruleKeys scanHistory).count p.1 := by
  intro sh c c'
  refine ⟨rfl, ?_⟩
  intro p hp
  have hm : p ∈ byRule sh := mem_of_mem_rankTop hp
  obtain ⟨k, cnt⟩ := p
  exact count_countsOf hm

/-- Witness for C1 amended: the entry (A, 1) produced by a single local
record with matchedRules A counts one occurrence of the token A. -/
theorem C1_topRules_amended_witness :
    (("A", 1) : String × ℕ).2
      = (ruleKeys [{ matched_rules := some "A" }]).count (("A", 1) : String × ℕ).1 :=
  (C1_topRules_amended [{ matched_rules := some "A" }] [] []).2 ("A", 1) (by decide)

/-- Counterexample for C10: a record with a missing sender but a present
email_from does contribute a sender count and appears in
topSendersLocal, contradicting the claim that a sender-less record can
never appear there. -/
theorem C10_sender_fallback_cex :
    topThreatSenders [{ email_from := some "bob" }] = [("bob", 1)] ∧
    ({ email_from := some "bob" } : ScanRecord).sender = none :=
  ⟨by decide, rfl⟩

/-- C10 amended: a record with an empty or missing sender is still
counted in totalScans and the risk histogram; it contributes to no
collective sender count (collective identity uses only the sender
field), while local sender identity falls back to email_from, so the
record is absent from the local sender counts only when email_from is
also empty or missing. -/
theorem C10_sender_fallback_amended :
    ∀ (l1 l2 : List ScanRecord) (r : ScanRecord),
      (r.sender = none ∨ r.sender = some "") →
      (computeMetrics (l1 ++ r :: l2)).total = (computeMetrics (l1 ++ l2)).total + 1 ∧
      (computeMetrics (l1 ++ r :: l2)).high + (computeMetrics (l1 ++ r :: l2)).med
          + (computeMetrics (l1 ++ r :: l2)).low
        = (computeMetrics (l1 ++ l2)).high + (computeMetrics (l1 ++ l2)).med
          + (computeMetrics (l1 ++ l2)).low + 1 ∧
      collSenders (l1 ++ r :: l2) = collSenders (l1 ++ l2) ∧
      topSendersCollective (l1 ++ r :: l2) = topSendersCollective (l1 ++ l2) ∧
      ((r.email_from = none ∨ r.email_from = some "") →
        bySender (l1 ++ r :: l2) = bySender (l1 ++ l2) ∧
        topThreatSenders (l1 ++ r :: l2) = topThreatSenders (l1 ++ l2)) ∧
      (∀ s : String, r.email_from = some s → s ≠ "" →
        senderKeys (l1 ++ r :: l2) = senderKeys l1 ++ s :: senderKeys l2) := by
  intro l1 l2 r hs
  have hck : collSenderKey r = none := by
    rcases hs with h | h <;> simp [collSenderKey, h]
  have hcoll : collSenders (l1 ++ r :: l2) = collSenders (l1 ++ l2) := by
    rw [collSenders, collSenders, collSenderKeys, collSenderKeys,
      List.filterMap_append, List.filterMap_append, List.filterMap_cons_none hck]
  refine ⟨?_, ?_, hcoll, ?_, ?_, ?_⟩
  · rw [computeMetrics_total, computeMetrics_total]
    simp only [List.length_append, List.length_cons]
    omega
  · have e1 := filter_score_partition (scores (l1 ++ r :: l2))
    have e2 := filter_score_partition (scores (l1 ++ l2))
    have ln : (scores (l1 ++ r :: l2)).length = (scores (l1 ++ l2)).length + 1 := by
      simp only [scores, List.length_map, List.length_append, List.length_cons]
      omega
    rw [computeMetrics_high, computeMetrics_med, computeMetrics_low,
      computeMetrics_high, computeMetrics_med, computeMetrics_low]
    omega
  · rw [topSendersCollective, topSendersCollective, hcoll]
  · intro he
    have hlk : localSenderKey r = none := by
      rcases hs with h | h <;> rcases he with h2 | h2 <;>
        simp [localSenderKey, strOr, h, h2]
    have hsk : senderKeys (l1 ++ r :: l2) = senderKeys (l1 ++ l2) := by
      rw [senderKeys, senderKeys, List.filterMap_append, List.filterMap_append,
        List.filterMap_cons_none hlk]
    constructor
    · rw [bySender, bySender, hsk]
    · rw [topThreatSenders, topThreatSenders, bySender, bySender, hsk]
  · intro s he hne
    have hlk : localSenderKey r = some s := by
      rcases hs with h | h <;> simp [localSenderKey, strOr, h, he, hne]
    rw [senderKeys, List.filterMap_append]
    have hstep : List.filterMap localSenderKey (r :: l2)
        = s :: List.filterMap localSenderKey l2 := by
      simp only [List.filterMap_cons, hlk]
    rw [hstep]
    rfl

/-- Witness for C10 amended at a record with a missing sender and
email_from eve: the local sender key sequence picks up eve. -/
theorem C10_sender_fallback_amended_witness :
    senderKeys ([] ++ ({ sender := none, email_from := some "eve" } : ScanRecord) :: [])
      = senderKeys [] ++ "eve" :: senderKeys [] :=
  (C10_sender_fallback_amended [] [] { sender := none, email_from := some "eve" }
      (Or.inl rfl)).2.2.2.2.2 "eve" rfl (by decide)

/-- C6: every ranked list (top threat senders, community top senders,
top rules) is sorted descending by count, holds at most 7 entries, and
keeps tied counts in the counting map's order, whose keys are the
first-seen order of the identities during the aggregation pass. -/
theorem C6_ranking_discipline :
    ∀ (scanHistory collective : List ScanRecord),
      RankingOK (topThreatSenders scanHistory) (bySender scanHistory)
          (senderKeys scanHistory) ∧
      RankingOK (topSendersCollective collective) (collSenders collective)
          (collSenderKeys collective) ∧
      RankingOK (topRulesChart scanHistory collective) (byRule scanHistory)
          (ruleKeys scanHistory) :=
  fun sh c =>
    ⟨rankingOK_rankTop (senderKeys sh), rankingOK_rankTop (collSenderKeys c),
      rankingOK_rankTop (ruleKeys sh)⟩

/-- C8: a failed refresh fetch — non-ok response or thrown network
error — leaves the held record collections and the previously published
metrics untouched and ends the cycle idle. -/
theorem C8_failed_refresh :
    ∀ (st : DashState) (r : FetchResult), r.failed = true →
      autoRefreshTick st r = { st with phase := .idle } ∧
      (autoRefreshTick st r).scanHistory = st.scanHistory ∧
      (autoRefreshTick st r).collective = st.collective ∧
      (autoRefreshTick st r).published = st.published ∧
      (autoRefreshTick st r).phase = .idle := by
  intro st r hr
  cases r with
  | success sh cs => simp [FetchResult.failed] at hr
  | httpError => exact ⟨rfl, rfl, rfl, rfl, rfl⟩
  | netError => exact ⟨rfl, rfl, rfl, rfl, rfl⟩

/-- Witness for C8: an http failure during refresh leaves a concrete
state unchanged except for ending the cycle idle. -/
theorem C8_failed_refresh_witness :
    autoRefreshTick ⟨[], [], computeMetrics [], Phase.refreshing⟩ FetchResult.httpError
      = ⟨[], [], computeMetrics [], Phase.idle⟩ :=
  (C8_failed_refresh ⟨[], [], computeMetrics [], Phase.refreshing⟩
      FetchResult.httpError rfl).1

theorem rescanRun_len_le (fuel : ℕ) :
    ∀ polls : ℕ, polls ≤ 4 → ((rescanRun fuel polls).1).length ≤ 5 - polls := by
  induction fuel with
  | zero =>
    intro polls h
    simp [rescanRun]
  | succ fuel ih =>
    intro polls h
    by_cases h5 : 5 ≤ polls + 1
    · simp only [rescanRun, if_pos h5]
      simp
      omega
    · have hrec := ih (polls + 1) (by omega)
      simp only [rescanRun, if_neg h5, List.length_cons]
      omega

/-- C9: a successful manual rescan polls exactly 5 times at 2000 ms
spacing — polls at 2, 4, 6, 8 and 10 seconds — then clears its interval
and returns to idle; no sixth poll is ever issued regardless of how many
interval ticks are available, and a failed rescan request issues no
poll. -/
theorem C9_rescan_polls :
    (∀ fuel : ℕ, 5 ≤ fuel →
      rescanRun fuel 0
        = ([(1, 2000), (2, 4000), (3, 6000), (4, 8000), (5, 10000)], true)) ∧
    (∀ fuel : ℕ, ((rescanRun fuel 0).1).length ≤ 5) ∧
    (∀ fuel : ℕ, 5 ≤ fuel →
      List.Chain' (fun a b => b.2 = a.2 + 2000) ((rescanRun fuel 0).1)) ∧
    (∀ fuel : ℕ, handleRescan false fuel = ([], true)) := by
  have hmain : ∀ k : ℕ, rescanRun (k + 5) 0
      = ([(1, 2000), (2, 4000), (3, 6000), (4, 8000), (5, 10000)], true) := by
    intro k
    rfl
  refine ⟨?_, ?_, ?_, fun fuel => rfl⟩
  · intro fuel hf
    obtain ⟨k, rfl⟩ : ∃ k, fuel = k + 5 := ⟨fuel - 5, by omega⟩
    exact hmain k
  · intro fuel
    have := rescanRun_len_le fuel 0 (by omega)
    omega
  · intro fuel hf
    obtain ⟨k, rfl⟩ : ∃ k, fuel = k + 5 := ⟨fuel - 5, by omega⟩
    rw [hmain k]
    norm_num [List.chain'_cons]

/-- Witness for C9 with 7 available interval ticks: exactly the 5 polls
at 2-second spacing are issued, and the loop ends idle. -/
theorem C9_rescan_polls_witness :
    rescanRun 7 0 = ([(1, 2000), (2, 4000), (3, 6000), (4, 8000), (5, 10000)], true) :=
  C9_rescan_polls.1 7 (by norm_num)

end AutoGuardian
